import Mathlib

/-!
Shallow embedding of `src/BinToNETCDF.py` (the canonical revision of the
bin2cdf converter).  Finite floating-point values are modelled as rationals
(every finite IEEE double is rational); IEEE NaN is modelled as `none` in
`Option ℚ` / `Option ℝ`.  The dew-point formula needs the real logarithm, so
that stage is carried out over `Option ℝ`.
-/

/-- Magnus constant a = 17.62 (source: `a, b = 17.62, 243.12`). -/
def magnusA : ℝ := 17.62

/-- Magnus constant b = 243.12. -/
def magnusB : ℝ := 243.12

/-- NaN-propagating addition on modelled doubles. -/
def fpAdd : Option ℝ → Option ℝ → Option ℝ
  | some x, some y => some (x + y)
  | _, _ => none

/-- NaN-propagating subtraction on modelled doubles. -/
def fpSub : Option ℝ → Option ℝ → Option ℝ
  | some x, some y => some (x - y)
  | _, _ => none

/-- NaN-propagating multiplication on modelled doubles. -/
def fpMul : Option ℝ → Option ℝ → Option ℝ
  | some x, some y => some (x * y)
  | _, _ => none

/-- NaN-propagating division on modelled doubles. -/
noncomputable def fpDiv : Option ℝ → Option ℝ → Option ℝ
  | some x, some y => some (x / y)
  | _, _ => none

/-- `np.log`, propagating NaN. -/
noncomputable def fpLog : Option ℝ → Option ℝ
  | some x => some (Real.log x)
  | none => none

/-- `np.clip(x, lo, hi)`: NaN input stays NaN. -/
noncomputable def fpClip (x : Option ℝ) (lo hi : ℝ) : Option ℝ :=
  x.map (fun v => min (max v lo) hi)

/-- `compute_dew_point(Tc, RH)` from `src/BinToNETCDF.py` lines 16-23:
`RH = np.clip(RH, 0.1, 100.0)`,
`α = (a * Tc) / (b + Tc) + np.log(RH / 100.0)`,
result `(b * α) / (a - α)`. -/
noncomputable def compute_dew_point (Tc RH : Option ℝ) : Option ℝ :=
  let RHc := fpClip RH 0.1 100.0
  let alpha := fpAdd (fpDiv (fpMul (some magnusA) Tc) (fpAdd (some magnusB) Tc))
    (fpLog (fpDiv RHc (some 100.0)))
  fpDiv (fpMul (some magnusB) alpha) (fpSub (some magnusA) alpha)

/-- `np.nanmean` over a list of modelled doubles: the mean of the non-NaN
entries, NaN (`none`) when there is none. -/
def nanmeanOpt (xs : List (Option ℚ)) : Option ℚ :=
  let vs := xs.filterMap id
  if vs.isEmpty then none else some (vs.sum / (vs.length : ℚ))

/-- Python `a or b` on optional float attribute reads: `a` when it is a
truthy float (present and nonzero), otherwise `b`. -/
def pyOr (a b : Option ℚ) : Option ℚ :=
  match a with
  | some x => if x = 0 then b else some x
  | none => b

/-- `t_c = (t - 273.15) if t > 200 else t` with NaN passing through
(NaN > 200 is false in IEEE, so NaN stays NaN). -/
def kelvinFix : Option ℚ → Option ℚ
  | some v => if 200 < v then some (v - 273.15) else some v
  | none => none

/-- One decoded DataFlash message: optional `_timestamp`, message type,
and named float fields (the decoder's `(timestamp, type, fields)` tuple). -/
structure Msg where
  ts : Option ℚ
  typ : String
  fields : List (String × ℚ)

/-- `getattr(msg, k, default-absent)` / `d.get(k, np.nan)`: look a field up
by name. -/
def getF (m : Msg) (k : String) : Option ℚ :=
  (m.fields.find? (fun p => p.1 == k)).map (fun p => p.2)

/-- The five typed channel accumulators of `process_dataflash_log`:
`GPS_data` rows `(ts, Lat, Lng, Alt)`, `BARO_data` rows `(ts, press, tempC)`,
`TEMP_data` rows `(ts, t1, t2, t3)`, `HUM_data` rows `(ts, rh, tempC)`,
`IMU_data` rows `(ts, Temp)`. -/
structure Channels where
  gps : List (ℚ × ℚ × ℚ × ℚ)
  baro : List (ℚ × ℚ × Option ℚ)
  temp : List (ℚ × Option ℚ × Option ℚ × Option ℚ)
  hum : List (ℚ × Option ℚ × Option ℚ)
  imu : List (ℚ × ℚ)

/-- The empty accumulators the decode loop starts from. -/
def emptyChannels : Channels := ⟨[], [], [], [], []⟩

/-- Kelvin-to-Celsius shift applied unconditionally (`t - 273.15`),
NaN passing through. -/
def k2c (t : Option ℚ) : Option ℚ := t.map (fun v => v - 273.15)

/-- One iteration of the decode loop (`src/BinToNETCDF.py` lines 43-76):
route the message into zero or one channel. -/
def classifyStep (c : Channels) (m : Msg) : Channels :=
  match m.ts with
  | none => c
  | some ts =>
    if m.typ = "GPS" then
      match getF m "Lat", getF m "Lng", getF m "Alt" with
      | some la, some ln, some al => { c with gps := c.gps ++ [(ts, la, ln, al)] }
      | _, _, _ => c
    else if m.typ = "WXTP" then
      { c with temp := c.temp ++
          [(ts, k2c (getF m " t0"), k2c (getF m " t1"), k2c (getF m " t2"))] }
    else if m.typ = "WXRH" then
      { c with hum := c.hum ++
          [(ts, nanmeanOpt [getF m " rh0", getF m " rh1", getF m " rh2"],
            nanmeanOpt [k2c (getF m " t0"), k2c (getF m " t1"), k2c (getF m " t2")])] }
    else if m.typ = "SCALED_PRESSURE" ∨ m.typ = "BARO" then
      match pyOr (getF m "press_abs") (getF m "Press") with
      | some p => { c with baro := c.baro ++
          [(ts, p, kelvinFix (pyOr (getF m "temperature") (getF m "Temp")))] }
      | none => c
    else if m.typ = "TEMP" ∨ m.typ = "TEMPERATURE" then
      { c with temp := c.temp ++ [(ts, getF m "Temp1", getF m "Temp2", getF m "Temp3")] }
    else if m.typ = "IMU" then
      match getF m "Temp" with
      | some tv => { c with imu := c.imu ++ [(ts, tv)] }
      | none => c
    else c

/-- The whole decode loop: fold `classifyStep` over the message stream,
starting from freshly initialised empty accumulators. -/
def classify (msgs : List Msg) : Channels :=
  msgs.foldl classifyStep emptyChannels

/-- Insert an integer into an ascending list, keeping it ascending. -/
def insertSorted (x : ℤ) : List ℤ → List ℤ
  | [] => [x]
  | y :: ys => if x ≤ y then x :: y :: ys else y :: insertSorted x ys

/-- Ascending insertion sort on integers. -/
def sortInts : List ℤ → List ℤ
  | [] => []
  | x :: xs => insertSorted x (sortInts xs)

/-- The master index (`bins = np.unique(np.floor(GPS_data[:, 0]))`): the
sorted list of distinct whole-second buckets occurring in the GPS channel. -/
def binsOf (gps : List (ℚ × ℚ × ℚ × ℚ)) : List ℤ :=
  sortInts ((gps.map (fun g => ⌊g.1⌋)).dedup)

/-- `GPS_data[m][0]`: the first GPS row (in decode order) whose floored
timestamp equals the bucket `t`. -/
def firstInBucket (gps : List (ℚ × ℚ × ℚ × ℚ)) (t : ℤ) : Option (ℚ × ℚ × ℚ × ℚ) :=
  gps.find? (fun r => ⌊r.1⌋ == t)

/-- Pressure aggregation (`src/BinToNETCDF.py` lines 111-115): per master
bucket, `np.nanmean` of the in-bucket pressure values; buckets with no BARO
row, or an entirely absent BARO channel, stay NaN. -/
def aggPress (baro : List (ℚ × ℚ × Option ℚ)) (bins : List ℤ) : List (Option ℚ) :=
  if baro.isEmpty then bins.map (fun _ => none)
  else bins.map (fun t =>
    let ms := baro.filter (fun r => ⌊r.1⌋ == t)
    if ms.isEmpty then none else nanmeanOpt (ms.map (fun r => some r.2.1)))

/-- Humidity aggregation (lines 117-121): per master bucket, `np.nanmean`
of the in-bucket (pre-averaged) humidity values. -/
def aggHum (hum : List (ℚ × Option ℚ × Option ℚ)) (bins : List ℤ) : List (Option ℚ) :=
  if hum.isEmpty then bins.map (fun _ => none)
  else bins.map (fun t =>
    let ms := hum.filter (fun r => ⌊r.1⌋ == t)
    if ms.isEmpty then none else nanmeanOpt (ms.map (fun r => r.2.1)))

/-- `temp_sources` (lines 123-131): the per-channel `(ts, temp)` tables that
feed the combined-temperature pool, each included only when its channel is
non-empty, in source order TEMP, IMU, BARO, HUM. -/
def tempSources (c : Channels) : List (List (ℚ × Option ℚ)) :=
  (if c.temp.isEmpty then [] else [c.temp.map (fun r => (r.1, r.2.1))]) ++
  (if c.imu.isEmpty then [] else [c.imu.map (fun r => (r.1, some r.2))]) ++
  (if c.baro.isEmpty then [] else [c.baro.map (fun r => (r.1, r.2.2))]) ++
  (if c.hum.isEmpty then [] else [c.hum.map (fun r => (r.1, r.2.2))])

/-- `all_t = np.vstack(temp_sources)`. -/
def allTemps (c : Channels) : List (ℚ × Option ℚ) :=
  (tempSources c).flatten

/-- Combined-temperature aggregation (lines 133-138), before smoothing: per
master bucket, `np.nanmean` of all pooled in-bucket temperature values; the
column stays all-NaN when there is no temperature source at all. -/
def aggTempRaw (c : Channels) (bins : List ℤ) : List (Option ℚ) :=
  if (tempSources c).isEmpty then bins.map (fun _ => none)
  else bins.map (fun t =>
    let ms := (allTemps c).filter (fun r => ⌊r.1⌋ == t)
    if ms.isEmpty then none else nanmeanOpt (ms.map (fun r => r.2)))

/-- NaN-propagating addition on modelled doubles over ℚ. -/
def oAdd : Option ℚ → Option ℚ → Option ℚ
  | some x, some y => some (x + y)
  | _, _ => none

/-- NaN-propagating subtraction on modelled doubles over ℚ. -/
def oSub : Option ℚ → Option ℚ → Option ℚ
  | some x, some y => some (x - y)
  | _, _ => none

/-- `mode='nearest'` index clamping: out-of-range window indices are clamped
to the nearest valid index (boundary replication). -/
def nearestIdx (n : ℕ) (j : ℤ) : ℕ :=
  (min (max j 0) ((n : ℤ) - 1)).toNat

/-- Read a column entry under nearest-edge replication. -/
def nearestGet (xs : List (Option ℚ)) (j : ℤ) : Option ℚ :=
  xs.getD (nearestIdx xs.length j) none

/-- The window offsets of the centred width-9 filter (size 9, origin 0). -/
def woffsets : List ℤ := [-4, -3, -2, -1, 0, 1, 2, 3, 4]

/-- The sum of the width-9 window centred at `i` (offsets -4 … +4), edges
replicated; a NaN anywhere in the window makes the sum NaN. -/
def windowSum (xs : List (Option ℚ)) (i : ℕ) : Option ℚ :=
  (woffsets.map (fun o => nearestGet xs ((i : ℤ) + o))).foldr oAdd (some 0)

/-- The mean of the width-9 window centred at `i`. -/
def windowMean (xs : List (Option ℚ)) (i : ℕ) : Option ℚ :=
  (windowSum xs i).map (fun s => s / 9)

/-- The incremental running window sum of scipy's `NI_UniformFilter1D`: the
sum over the first window (centred at index 0 on the nearest-extended line),
then for each next output index `m = i + 1` the update
`sum += line[m + 4] - line[m - 5]`.  Because IEEE `NaN - NaN = NaN`, a NaN
that ever enters the sum is never removed by the subtraction, so the state
stays NaN for the rest of the line. -/
def runSums (xs : List (Option ℚ)) : ℕ → Option ℚ
  | 0 => windowSum xs 0
  | i + 1 => oSub (oAdd (runSums xs i) (nearestGet xs ((i : ℤ) + 5)))
      (nearestGet xs ((i : ℤ) - 4))

/-- `scipy.ndimage.uniform_filter1d(xs, size=9, mode='nearest')`: each
output is the current running window sum divided by 9.  On NaN-free input
this is the centred width-9 moving average with boundary replication; a NaN
contaminates every output from the first window containing it to the end of
the line (running-sum implementation). -/
def uniformFilter9 (xs : List (Option ℚ)) : List (Option ℚ) :=
  (List.range xs.length).map (fun i => (runSums xs i).map (fun s => s / 9))

/-- The temperature smoother (lines 139-140): the width-9 filter is applied
only when the row count exceeds 9; shorter columns pass through unchanged. -/
def smooth (xs : List (Option ℚ)) : List (Option ℚ) :=
  if 9 < xs.length then uniformFilter9 xs else xs

/-- The assembled output table: one entry per master-index bucket in every
column (`pd.DataFrame(out)`). -/
structure Table where
  obs : List ℕ
  lat : List (Option ℚ)
  lon : List (Option ℚ)
  altitude : List (Option ℚ)
  time : List ℤ
  air_temp : List (Option ℚ)
  dew_point : List (Option ℝ)
  rel_hum : List (Option ℚ)
  air_press : List (Option ℚ)
  gpt : List (Option ℚ)
  gpt_height : List (Option ℚ)
  wind_speed : List (Option ℚ)
  wind_dir : List (Option ℚ)

/-- Cast a modelled ℚ double to the real-valued model used by the dew-point
stage. -/
def q2r (x : Option ℚ) : Option ℝ := x.map (fun v => (v : ℝ))

/-- `process_dataflash_log` (lines 33-143) after decoding: classify the
message stream, reject the session when no GPS sample was collected,
otherwise build the master index, aggregate every channel, smooth the
combined-temperature column when the table is longer than 9 rows, and fill
the dew-point column element-wise from the (smoothed) temperature and the
raw aggregated humidity. -/
noncomputable def process (msgs : List Msg) : Option Table :=
  let c := classify msgs
  if c.gps.isEmpty then none
  else
    let bins := binsOf c.gps
    let n := bins.length
    let rawT := aggTempRaw c bins
    let tempC := if (tempSources c).isEmpty then rawT
      else (if 9 < n then uniformFilter9 rawT else rawT)
    let humC := aggHum c.hum bins
    some {
      obs := (List.range n).map (fun i => i + 1)
      lat := bins.map (fun t => (firstInBucket c.gps t).map (fun r => r.2.1))
      lon := bins.map (fun t => (firstInBucket c.gps t).map (fun r => r.2.2.1))
      altitude := bins.map (fun t => (firstInBucket c.gps t).map (fun r => r.2.2.2))
      time := bins
      air_temp := tempC
      dew_point := List.zipWith (fun a r => compute_dew_point (q2r a) (q2r r)) tempC humC
      rel_hum := humC
      air_press := aggPress c.baro bins
      gpt := List.replicate n none
      gpt_height := List.replicate n none
      wind_speed := List.replicate n none
      wind_dir := List.replicate n none }

/-- The `__main__` driver (lines 194-202) restricted to its file-writing
effect: when `process` rejects the session nothing is written; otherwise
`save_outputs` writes the text table and the NetCDF file (it writes nothing
for an empty frame). -/
noncomputable def runMain (msgs : List Msg) : List String :=
  match process msgs with
  | none => []
  | some df => if df.obs.isEmpty then [] else ["txt", "nc"]

/-- Ambient state the conversion could in principle observe: a wall clock,
residue left in the accumulators by a previous run, and the platform
environment.  The body of `process_dataflash_log` consults none of these. -/
structure Env where
  clock : ℕ → ℚ
  residue : Channels
  platform : String

/-- One run of the core conversion in ambient environment `e`: the source
re-initialises its accumulators and reads neither clock nor platform, so the
run is the pure function `process` of the decoded message stream. -/
noncomputable def runInEnv (_e : Env) (msgs : List Msg) : Option Table :=
  process msgs

/-- Claim-side pool for the combined temperature at bucket `t`: the union of
the in-bucket temperature readings of the Temperature (first sub-reading),
InertialTemperature, Pressure (temperature sub-field) and Humidity
(temperature sub-field) channels. -/
def tempPool (c : Channels) (t : ℤ) : List (Option ℚ) :=
  (c.temp.filter (fun r => ⌊r.1⌋ == t)).map (fun r => r.2.1) ++
  (c.imu.filter (fun r => ⌊r.1⌋ == t)).map (fun r => some r.2) ++
  (c.baro.filter (fun r => ⌊r.1⌋ == t)).map (fun r => r.2.2) ++
  (c.hum.filter (fun r => ⌊r.1⌋ == t)).map (fun r => r.2.2)

lemma nanmeanOpt_nil : nanmeanOpt [] = none := rfl

lemma filterOfMap {α β : Type} (f : α → β) (p : β → Bool) (l : List α) :
    (l.map f).filter p = (l.filter (fun a => p (f a))).map f := by
  induction l with
  | nil => rfl
  | cons a l ih =>
    by_cases h : p (f a) <;> simp [List.filter_cons, h, ih]

lemma ifEmpty_nanmean {α : Type} (l : List α) (g : α → Option ℚ) :
    (if l.isEmpty then none else nanmeanOpt (l.map g)) = nanmeanOpt (l.map g) := by
  by_cases h : l.isEmpty
  · have h0 : l = [] := by simpa [List.isEmpty_iff] using h
    subst h0
    simp [nanmeanOpt]
  · simp [h]

lemma tempSources_empty_iff (c : Channels) :
    (tempSources c).isEmpty = true ↔
      c.temp = [] ∧ c.imu = [] ∧ c.baro = [] ∧ c.hum = [] := by
  unfold tempSources
  by_cases h1 : c.temp.isEmpty <;> by_cases h2 : c.imu.isEmpty <;>
    by_cases h3 : c.baro.isEmpty <;> by_cases h4 : c.hum.isEmpty <;>
    simp_all [List.isEmpty_iff]

lemma allTemps_eq (c : Channels) :
    allTemps c =
      c.temp.map (fun r => (r.1, r.2.1)) ++ c.imu.map (fun r => (r.1, some r.2)) ++
      c.baro.map (fun r => (r.1, r.2.2)) ++ c.hum.map (fun r => (r.1, r.2.2)) := by
  unfold allTemps tempSources
  by_cases h1 : c.temp.isEmpty <;> by_cases h2 : c.imu.isEmpty <;>
    by_cases h3 : c.baro.isEmpty <;> by_cases h4 : c.hum.isEmpty <;>
    simp_all [List.isEmpty_iff]

/-- C7: `dewpoint(Tc, RH)` yields NaN whenever either argument is NaN; the
function is total, so no error is raised. -/
theorem dewPoint_nan_propagation (Tc RH : Option ℝ) (h : Tc = none ∨ RH = none) :
    compute_dew_point Tc RH = none := by
  rcases h with h | h
  · subst h; cases RH <;> rfl
  · subst h; cases Tc <;> rfl

theorem dewPoint_nan_propagation_inst :
    compute_dew_point none (some 50) = none ∧ compute_dew_point (some 20) none = none :=
  ⟨dewPoint_nan_propagation none (some 50) (Or.inl rfl),
   dewPoint_nan_propagation (some 20) none (Or.inr rfl)⟩

/-- C9: a pressure-type record whose `press_abs` is exactly 0.0 (and that has
no `Press` fallback) is discarded by the classifier; a pressure record whose
`temperature` is exactly 0.0 has that value replaced by the `Temp` fallback
attribute, or by NaN when the fallback is absent, because Python `or` treats
0.0 as falsy. -/
theorem classifier_zero_truthiness :
    (classify [⟨some 10, "SCALED_PRESSURE", [("press_abs", 0)]⟩]).baro = [] ∧
    (classify [⟨some 10, "BARO", [("Press", 1013), ("temperature", 0)]⟩]).baro
      = [(10, 1013, none)] ∧
    (classify [⟨some 10, "BARO", [("Press", 1013), ("temperature", 0), ("Temp", 5)]⟩]).baro
      = [(10, 1013, some 5)] := by
  decide

/-- C10: the core conversion is a pure function of the decoded record
sequence: two runs in arbitrary ambient environments (clock, accumulator
residue, platform) agree with each other and with `process`. -/
theorem core_deterministic :
    ∀ (e1 e2 : Env) (msgs : List Msg),
      runInEnv e1 msgs = runInEnv e2 msgs ∧ runInEnv e1 msgs = process msgs :=
  fun _ _ _ => ⟨rfl, rfl⟩

lemma oAdd_some (x y : ℚ) : oAdd (some x) (some y) = some (x + y) := rfl

lemma oSub_some (x y : ℚ) : oSub (some x) (some y) = some (x - y) := rfl

lemma oAdd_none_left (x : Option ℚ) : oAdd none x = none := by
  cases x <;> rfl

lemma oAdd_none_right (x : Option ℚ) : oAdd x none = none := by
  cases x <;> rfl

lemma oSub_none_left (x : Option ℚ) : oSub none x = none := by
  cases x <;> rfl

lemma foldr_oAdd_none_iff (l : List (Option ℚ)) (c : ℚ) :
    l.foldr oAdd (some c) = none ↔ none ∈ l := by
  induction l with
  | nil => simp
  | cons a l ih =>
    cases a with
    | none => simp [List.foldr_cons, oAdd_none_left]
    | some x =>
      rw [List.foldr_cons]
      cases hr : l.foldr oAdd (some c) with
      | none => simp [oAdd_none_right, ih.mp hr]
      | some y => simp [oAdd_some, ← ih, hr]

lemma mem_woffsets_iff (o : ℤ) : o ∈ woffsets ↔ -4 ≤ o ∧ o ≤ 4 := by
  simp [woffsets]
  omega

/-- `windowSum xs j = none` exactly when the centred width-9 window at `j`
(under nearest-edge replication) contains a NaN. -/
lemma windowSum_none_iff (xs : List (Option ℚ)) (j : ℕ) :
    windowSum xs j = none ↔
      ∃ o : ℤ, o ∈ woffsets ∧ nearestGet xs ((j : ℤ) + o) = none := by
  unfold windowSum
  rw [foldr_oAdd_none_iff]
  constructor
  · intro h
    obtain ⟨o, ho, hn⟩ := List.mem_map.mp h
    exact ⟨o, ho, hn⟩
  · rintro ⟨o, ho, hn⟩
    exact List.mem_map.mpr ⟨o, ho, hn⟩

/-- Sliding the exact window sum one step right, legitimate only when both
windows are NaN-free (unlike the program's running sum, which keeps a NaN
forever once one entered). -/
lemma windowSum_slide (xs : List (Option ℚ)) (i : ℕ)
    (hW1 : windowSum xs i ≠ none) (hW2 : windowSum xs (i + 1) ≠ none) :
    oSub (oAdd (windowSum xs i) (nearestGet xs ((i : ℤ) + 5)))
        (nearestGet xs ((i : ℤ) - 4))
      = windowSum xs (i + 1) := by
  have hk1 : ∀ o : ℤ, o ∈ woffsets → nearestGet xs ((i : ℤ) + o) ≠ none :=
    fun o ho hn => hW1 ((windowSum_none_iff xs i).mpr ⟨o, ho, hn⟩)
  have hk2 : ∀ o : ℤ, o ∈ woffsets → nearestGet xs (((i + 1 : ℕ) : ℤ) + o) ≠ none :=
    fun o ho hn => hW2 ((windowSum_none_iff xs (i + 1)).mpr ⟨o, ho, hn⟩)
  have t0 := hk1 (-4) (by decide)
  have t1 := hk1 (-3) (by decide)
  have t2 := hk1 (-2) (by decide)
  have t3 := hk1 (-1) (by decide)
  have t4 := hk1 0 (by decide)
  have t5 := hk1 1 (by decide)
  have t6 := hk1 2 (by decide)
  have t7 := hk1 3 (by decide)
  have t8 := hk1 4 (by decide)
  have u8 := hk2 4 (by decide)
  unfold windowSum woffsets
  simp only [List.map_cons, List.map_nil, List.foldr_cons, List.foldr_nil]
  push_cast at u8 ⊢
  ring_nf at t0 t1 t2 t3 t4 t5 t6 t7 t8 u8 ⊢
  obtain ⟨a0, e0⟩ := Option.ne_none_iff_exists'.mp t0
  obtain ⟨a1, e1⟩ := Option.ne_none_iff_exists'.mp t1
  obtain ⟨a2, e2⟩ := Option.ne_none_iff_exists'.mp t2
  obtain ⟨a3, e3⟩ := Option.ne_none_iff_exists'.mp t3
  obtain ⟨a4, e4⟩ := Option.ne_none_iff_exists'.mp t4
  obtain ⟨a5, e5⟩ := Option.ne_none_iff_exists'.mp t5
  obtain ⟨a6, e6⟩ := Option.ne_none_iff_exists'.mp t6
  obtain ⟨a7, e7⟩ := Option.ne_none_iff_exists'.mp t7
  obtain ⟨a8, e8⟩ := Option.ne_none_iff_exists'.mp t8
  obtain ⟨b8, f8⟩ := Option.ne_none_iff_exists'.mp u8
  rw [e0, e1, e2, e3, e4, e5, e6, e7, e8, f8]
  simp only [oAdd_some, oSub_some]
  rw [Option.some_inj]
  ring

/-- When every window up to index `i` is NaN-free, the program's running sum
agrees with the exact window sum. -/
lemma runSums_eq_windowSum (xs : List (Option ℚ)) :
    ∀ i : ℕ, (∀ j, j ≤ i → windowSum xs j ≠ none) → runSums xs i = windowSum xs i := by
  intro i
  induction i with
  | zero => intro _; rfl
  | succ i ih =>
    intro h
    have hW1 : windowSum xs i ≠ none := h i (Nat.le_succ i)
    have hW2 : windowSum xs (i + 1) ≠ none := h (i + 1) le_rfl
    have hs : runSums xs i = windowSum xs i :=
      ih (fun j hj => h j (le_trans hj (Nat.le_succ i)))
    show oSub (oAdd (runSums xs i) (nearestGet xs ((i : ℤ) + 5)))
        (nearestGet xs ((i : ℤ) - 4)) = windowSum xs (i + 1)
    rw [hs, windowSum_slide xs i hW1 hW2]

/-- Once a NaN at extended-line position `p` has been folded into the
running sum, every later state is NaN. -/
lemma runSums_none_of (xs : List (Option ℚ)) (p : ℤ)
    (hp : nearestGet xs p = none) (h1 : -4 ≤ p) :
    ∀ i : ℕ, p ≤ (i : ℤ) + 4 → runSums xs i = none := by
  intro i
  induction i with
  | zero =>
    intro h2
    show windowSum xs 0 = none
    apply (windowSum_none_iff xs 0).mpr
    refine ⟨p, (mem_woffsets_iff p).mpr (by omega), ?_⟩
    have e : ((0 : ℕ) : ℤ) + p = p := by
      omega
    rw [e]
    exact hp
  | succ i ih =>
    intro h2
    show oSub (oAdd (runSums xs i) (nearestGet xs ((i : ℤ) + 5)))
        (nearestGet xs ((i : ℤ) - 4)) = none
    by_cases hc : p ≤ (i : ℤ) + 4
    · rw [ih hc, oAdd_none_left, oSub_none_left]
    · have hp5 : (i : ℤ) + 5 = p := by omega
      rw [hp5, hp, oAdd_none_right, oSub_none_left]

lemma smooth_get (xs : List (Option ℚ)) (h : 9 < xs.length) (i : ℕ)
    (hi : i < xs.length) :
    (smooth xs).get? i = some ((runSums xs i).map (fun s => s / 9)) := by
  unfold smooth
  rw [if_pos h]
  unfold uniformFilter9
  rw [List.get?_map, List.get?_range hi]
  rfl

/-- C5 counterexample: on the 12-entry column `[NaN, 1, 1, …, 1]` the
program's running-sum smoother yields NaN at index 5 (the NaN entered the
sum in the very first window and is never removed), while the centred
width-9 nearest-padded window mean at index 5 is 1 — so the smoothed column
is not the centred moving average. -/
theorem smoother_nan_counterexample :
    (smooth [none, some 1, some 1, some 1, some 1, some 1, some 1, some 1, some 1,
        some 1, some 1, some 1]).get? 5
      ≠ some (windowMean [none, some 1, some 1, some 1, some 1, some 1, some 1, some 1,
        some 1, some 1, some 1, some 1] 5) := by
  have h1 : (smooth [none, some 1, some 1, some 1, some 1, some 1, some 1, some 1, some 1,
      some 1, some 1, some 1]).get? 5 = some none := rfl
  have h2 : windowMean [none, some 1, some 1, some 1, some 1, some 1, some 1, some 1,
      some 1, some 1, some 1, some 1] 5 = some 1 := by
    have hs : windowSum [none, some 1, some 1, some 1, some 1, some 1, some 1, some 1,
        some 1, some 1, some 1, some 1] 5
        = some (1 + (1 + (1 + (1 + (1 + (1 + (1 + (1 + (1 + 0))))))))) := rfl
    unfold windowMean
    rw [hs]
    norm_num
  rw [h1, h2]
  simp

/-- C5 amended: the temperature smoother is the identity on columns of
length at most 9.  On longer columns it is scipy's running-sum width-9
centred filter with nearest-edge replication: an entry all of whose
preceding windows (its own included) are NaN-free equals the centred width-9
window mean — never a shrunken window or zero padding — while from the
first NaN-containing window to the end of the column every entry is NaN. -/
theorem smoother_fixed_window (xs : List (Option ℚ)) :
    (xs.length ≤ 9 → smooth xs = xs) ∧
    (9 < xs.length → ∀ i, i < xs.length →
      ((∀ j, j ≤ i → windowSum xs j ≠ none) →
        (smooth xs).get? i = some (windowMean xs i)) ∧
      ((∃ j, j ≤ i ∧ windowSum xs j = none) →
        (smooth xs).get? i = some none)) := by
  constructor
  · intro h
    unfold smooth
    rw [if_neg (by omega)]
  · intro h i hi
    constructor
    · intro hclean
      rw [smooth_get xs h i hi, runSums_eq_windowSum xs i hclean]
      rfl
    · rintro ⟨j, hj, hWj⟩
      obtain ⟨o, ho, hg⟩ := (windowSum_none_iff xs j).mp hWj
      rw [mem_woffsets_iff] at ho
      have hrun : runSums xs i = none := by
        apply runSums_none_of xs ((j : ℤ) + o) hg (by omega) i (by omega)
      rw [smooth_get xs h i hi, hrun]
      rfl

theorem smoother_fixed_window_inst :
    smooth [some 1, some 2, some 3] = [some 1, some 2, some 3] ∧
    (smooth [some 9, some 9, some 9, some 9, some 9, some 9, some 9, some 9, some 9,
      some 9]).get? 0
      = some (windowMean [some 9, some 9, some 9, some 9, some 9, some 9, some 9, some 9,
        some 9, some 9] 0) ∧
    (smooth [none, some 1, some 1, some 1, some 1, some 1, some 1, some 1, some 1,
      some 1, some 1, some 1]).get? 5 = some none := by
  refine ⟨(smoother_fixed_window [some 1, some 2, some 3]).1 (by decide), ?_, ?_⟩
  · apply ((smoother_fixed_window [some 9, some 9, some 9, some 9, some 9, some 9, some 9,
      some 9, some 9, some 9]).2 (by decide) 0 (by decide)).1
    intro j hj
    have hj0 : j = 0 := Nat.le_zero.mp hj
    subst hj0
    have hv : windowSum [some 9, some 9, some 9, some 9, some 9, some 9, some 9, some 9,
        some 9, some 9] 0
        = some (9 + (9 + (9 + (9 + (9 + (9 + (9 + (9 + (9 + 0))))))))) := rfl
    rw [hv]
    simp
  · exact ((smoother_fixed_window [none, some 1, some 1, some 1, some 1, some 1, some 1,
      some 1, some 1, some 1, some 1, some 1]).2 (by decide) 5 (by decide)).2
      ⟨0, Nat.zero_le 5, rfl⟩

lemma compute_dew_point_some (t r : ℝ) :
    compute_dew_point (some t) (some r) =
      some ((magnusB * (magnusA * t / (magnusB + t) +
          Real.log (min (max r 0.1) 100.0 / 100.0))) /
        (magnusA - (magnusA * t / (magnusB + t) +
          Real.log (min (max r 0.1) 100.0 / 100.0)))) := rfl

lemma clip_100 : min (max (100:ℝ) 0.1) 100.0 = 100 := by
  rw [max_eq_left (by norm_num : (0.1:ℝ) ≤ 100),
    min_eq_left (by norm_num : (100:ℝ) ≤ 100.0)]

/-- C6 counterexample: at `Tc = -243.12` the Magnus denominator `b + Tc`
vanishes, so `dewpoint(-243.12, 100.0)` is not `-243.12` (the source code
produces NaN there via `inf / inf`). -/
theorem dewPoint_saturation_counterexample :
    compute_dew_point (some (-243.12)) (some 100) ≠ some (-243.12) := by
  rw [compute_dew_point_some, clip_100]
  rw [show (100:ℝ) / 100.0 = 1 by norm_num, Real.log_one, add_zero]
  rw [show magnusB + (-243.12) = 0 by norm_num [magnusB]]
  intro hcontra
  rw [Option.some_inj] at hcontra
  norm_num [magnusA, magnusB] at hcontra

/-- C6 amended: for every `Tc` with `243.12 + Tc ≠ 0` (the code yields NaN at
the excluded point), `dewpoint(Tc, 100.0) = Tc`; and `dewpoint(20.0, 50.0)`
lies within 0.02 of 9.27 °C. -/
theorem dewPoint_saturation_amended (t : ℝ) (h : magnusB + t ≠ 0) :
    compute_dew_point (some t) (some 100) = some t ∧
    ∃ d : ℝ, compute_dew_point (some 20) (some 50) = some d ∧ |d - 9.27| < 1 / 50 := by
  have hA : magnusA ≠ 0 := by norm_num [magnusA]
  have hB : magnusB ≠ 0 := by norm_num [magnusB]
  constructor
  · rw [compute_dew_point_some, clip_100]
    rw [show (100:ℝ) / 100.0 = 1 by norm_num, Real.log_one, add_zero]
    rw [Option.some_inj]
    have hden : magnusA - magnusA * t / (magnusB + t) = magnusA * magnusB / (magnusB + t) := by
      field_simp
      ring
    rw [hden]
    field_simp
    ring
  · refine ⟨_, compute_dew_point_some 20 50, ?_⟩
    have h50 : min (max (50:ℝ) 0.1) 100.0 = 50 := by
      rw [max_eq_left (by norm_num : (0.1:ℝ) ≤ 50), min_eq_left (by norm_num : (50:ℝ) ≤ 100.0)]
    rw [h50, show (50:ℝ) / 100.0 = 2⁻¹ by norm_num, Real.log_inv]
    have hx1 : (0.6931:ℝ) < Real.log 2 := by
      have := Real.log_two_gt_d9; linarith
    have hx2 : Real.log 2 < (0.6932:ℝ) := by
      have := Real.log_two_lt_d9; linarith
    have hA20 : (1.3393:ℝ) < magnusA * 20 / (magnusB + 20) := by
      rw [lt_div_iff (by norm_num [magnusB] : (0:ℝ) < magnusB + 20)]
      norm_num [magnusA, magnusB]
    have hA20u : magnusA * 20 / (magnusB + 20) < (1.3394:ℝ) := by
      rw [div_lt_iff (by norm_num [magnusB] : (0:ℝ) < magnusB + 20)]
      norm_num [magnusA, magnusB]
    have hal : (0.6461:ℝ) < magnusA * 20 / (magnusB + 20) + -Real.log 2 := by linarith
    have hau : magnusA * 20 / (magnusB + 20) + -Real.log 2 < (0.6463:ℝ) := by linarith
    have hden : (0:ℝ) < magnusA - (magnusA * 20 / (magnusB + 20) + -Real.log 2) := by
      have : (17.62:ℝ) = magnusA := by norm_num [magnusA]
      linarith [this]
    rw [abs_sub_lt_iff]
    have hAv : magnusA = (17.62:ℝ) := by norm_num [magnusA]
    have hBv : magnusB = (243.12:ℝ) := by norm_num [magnusB]
    constructor
    · rw [sub_lt_iff_lt_add]
      rw [div_lt_iff hden]
      rw [hAv, hBv] at *
      linarith
    · rw [sub_lt_comm]
      rw [lt_div_iff hden]
      rw [hAv, hBv] at *
      linarith

theorem dewPoint_saturation_amended_inst :
    compute_dew_point (some 0) (some 100) = some 0 ∧
    ∃ d : ℝ, compute_dew_point (some 20) (some 50) = some d ∧ |d - 9.27| < 1 / 50 :=
  dewPoint_saturation_amended 0 (by norm_num [magnusB])

lemma map_const_none {α : Type} (l : List α) :
    l.map (fun _ => (none : Option ℚ)) = List.replicate l.length none := by
  induction l with
  | nil => rfl
  | cons a l ih => simp [ih, List.replicate_succ]

lemma aggTempRaw_get (c : Channels) (bins : List ℤ) (i : ℕ) (t : ℤ)
    (ht : bins.get? i = some t) :
    (aggTempRaw c bins).get? i = some (nanmeanOpt (tempPool c t)) := by
  unfold aggTempRaw
  by_cases hsrc : (tempSources c).isEmpty
  · rw [if_pos hsrc]
    obtain ⟨h1, h2, h3, h4⟩ := (tempSources_empty_iff c).mp hsrc
    rw [List.get?_map, ht]
    simp [tempPool, h1, h2, h3, h4, nanmeanOpt]
  · rw [if_neg hsrc, List.get?_map, ht]
    simp only [Option.map_some']
    rw [Option.some_inj]
    have hpool : (((allTemps c).filter (fun r => ⌊r.1⌋ == t)).map (fun r => r.2))
        = tempPool c t := by
      rw [allTemps_eq, List.filter_append, List.filter_append, List.filter_append,
        List.map_append, List.map_append, List.map_append]
      unfold tempPool
      rw [filterOfMap, filterOfMap, filterOfMap, filterOfMap,
        List.map_map, List.map_map, List.map_map, List.map_map]
      rfl
    rw [← hpool]
    exact ifEmpty_nanmean _ _

/-- C1: every master-index row's combined-temperature value, as produced by
the aggregation stage, is the NaN-ignoring arithmetic mean of the pooled
union of in-bucket temperature readings from the Temperature,
InertialTemperature, Pressure (temperature sub-field) and Humidity
(temperature sub-field) channels, all samples weighted equally and with no
priority between channels; an empty pool gives NaN.  (`process` smooths this
column afterwards as a separate stage.) -/
theorem combinedTemp_pooled_nanmean (c : Channels) (i : ℕ) (t : ℤ)
    (ht : (binsOf c.gps).get? i = some t) :
    (aggTempRaw c (binsOf c.gps)).get? i = some (nanmeanOpt (tempPool c t)) :=
  aggTempRaw_get c (binsOf c.gps) i t ht

theorem combinedTemp_pooled_nanmean_inst :
    (aggTempRaw (⟨[(10.5, 1, 2, 3)], [(10.5, 1013, some 20)], [], [], []⟩ : Channels)
        (binsOf (⟨[(10.5, 1, 2, 3)], [(10.5, 1013, some 20)], [], [], []⟩ : Channels).gps)).get? 0
      = some (nanmeanOpt (tempPool
          (⟨[(10.5, 1, 2, 3)], [(10.5, 1013, some 20)], [], [], []⟩ : Channels) 10)) :=
  combinedTemp_pooled_nanmean
    (⟨[(10.5, 1, 2, 3)], [(10.5, 1013, some 20)], [], [], []⟩ : Channels) 0 10
    (by norm_num [binsOf, sortInts, insertSorted])

lemma aggPress_get (baro : List (ℚ × ℚ × Option ℚ)) (bins : List ℤ) (i : ℕ) (t : ℤ)
    (ht : bins.get? i = some t) :
    (aggPress baro bins).get? i
      = some (nanmeanOpt ((baro.filter
          (fun r => ⌊r.1⌋ == t)).map (fun r => some r.2.1))) := by
  unfold aggPress
  by_cases hb : baro.isEmpty
  · rw [if_pos hb]
    have h0 : baro = [] := by simpa [List.isEmpty_iff] using hb
    subst h0
    rw [List.get?_map, ht]
    simp [nanmeanOpt]
  · rw [if_neg hb, List.get?_map, ht]
    simp only [Option.map_some']
    rw [Option.some_inj]
    exact ifEmpty_nanmean _ _

/-- C8: every master-index row's pressure value is the NaN-ignoring mean of
the in-bucket Pressure-channel pressure values (NaN when the bucket holds
none), and an entirely empty Pressure channel yields an all-NaN pressure
column of the master index's length. -/
theorem pressure_nanmean_and_empty (c : Channels) (i : ℕ) (t : ℤ)
    (ht : (binsOf c.gps).get? i = some t) :
    (aggPress c.baro (binsOf c.gps)).get? i
      = some (nanmeanOpt ((c.baro.filter
          (fun r => ⌊r.1⌋ == t)).map (fun r => some r.2.1))) ∧
    (c.baro = [] →
      aggPress c.baro (binsOf c.gps) = List.replicate (binsOf c.gps).length none) := by
  refine ⟨aggPress_get _ _ i t ht, ?_⟩
  intro h
  rw [h]
  simp [aggPress, map_const_none]

theorem pressure_nanmean_and_empty_inst :
    (aggPress (⟨[(10.5, 1, 2, 3)], [], [], [], []⟩ : Channels).baro
        (binsOf (⟨[(10.5, 1, 2, 3)], [], [], [], []⟩ : Channels).gps)).get? 0
      = some (nanmeanOpt ((((⟨[(10.5, 1, 2, 3)], [], [], [], []⟩ : Channels).baro.filter
          (fun r => ⌊r.1⌋ == 10)).map (fun r => some r.2.1)))) ∧
    ((⟨[(10.5, 1, 2, 3)], [], [], [], []⟩ : Channels).baro = [] →
      aggPress (⟨[(10.5, 1, 2, 3)], [], [], [], []⟩ : Channels).baro
          (binsOf (⟨[(10.5, 1, 2, 3)], [], [], [], []⟩ : Channels).gps)
        = List.replicate (binsOf (⟨[(10.5, 1, 2, 3)], [], [], [], []⟩ : Channels).gps).length
            none) :=
  pressure_nanmean_and_empty (⟨[(10.5, 1, 2, 3)], [], [], [], []⟩ : Channels) 0 10
    (by norm_num [binsOf, sortInts, insertSorted])

/-- C3: a session in which the classifier collects no Position sample makes
the conversion return the error value `None`, so no output table exists and
the driver writes neither the text table nor the NetCDF file. -/
theorem noPosition_aborts (msgs : List Msg) (h : (classify msgs).gps = []) :
    process msgs = none ∧ runMain msgs = [] := by
  have h1 : process msgs = none := by
    simp [process, h]
  refine ⟨h1, ?_⟩
  unfold runMain
  rw [h1]

theorem noPosition_aborts_inst :
    process [⟨some 10, "BARO", [("Press", 1013)]⟩] = none ∧
    runMain [⟨some 10, "BARO", [("Press", 1013)]⟩] = [] :=
  noPosition_aborts [⟨some 10, "BARO", [("Press", 1013)]⟩] (by decide)

lemma find?_first {α : Type} (p : α → Bool) (l : List α) (j : ℕ) (x : α)
    (hx : l.get? j = some x) (hpx : p x = true)
    (hfirst : ∀ y ∈ l.take j, p y = false) :
    l.find? p = some x := by
  induction l generalizing j with
  | nil => simp at hx
  | cons a l ih =>
    cases j with
    | zero =>
      simp only [List.get?_cons_zero, Option.some_inj] at hx
      subst hx
      exact List.find?_cons_of_pos _ hpx
    | succ j =>
      have ha : p a = false := hfirst a (by simp)
      rw [List.find?_cons_of_neg _ (by simp [ha])]
      exact ih j (by simpa using hx) (fun y hy => hfirst y (by simp [hy]))

/-- C4: for every master-index bucket `t`, the output row's latitude,
longitude and altitude are copied verbatim from the Position sample with the
earliest original decode order among those whose floored timestamp is `t`;
the choice depends only on that order, so it is deterministic under any
shuffling that keeps the tied samples' relative order. -/
theorem position_first_wins (msgs : List Msg) (tbl : Table)
    (h : process msgs = some tbl) (i : ℕ) (t : ℤ)
    (ht : (binsOf (classify msgs).gps).get? i = some t)
    (g : ℚ × ℚ × ℚ × ℚ) (j : ℕ)
    (hj : (classify msgs).gps.get? j = some g)
    (hg : ⌊g.1⌋ = t)
    (hfirst : ∀ g2 ∈ (classify msgs).gps.take j, ⌊g2.1⌋ ≠ t) :
    tbl.lat.get? i = some (some g.2.1) ∧
    tbl.lon.get? i = some (some g.2.2.1) ∧
    tbl.altitude.get? i = some (some g.2.2.2) := by
  have hfind : firstInBucket (classify msgs).gps t = some g := by
    apply find?_first _ _ j g hj
    · simpa using hg
    · intro y hy
      simpa using hfirst y hy
  simp only [process] at h
  by_cases hg0 : (classify msgs).gps.isEmpty = true
  · rw [if_pos hg0] at h
    exact absurd h (by simp)
  · rw [if_neg hg0] at h
    rw [Option.some_inj] at h
    subst h
    refine ⟨?_, ?_, ?_⟩ <;>
      simp only [List.get?_map, ht, Option.map_some', hfind]

lemma getD_replicate_none (n idx : ℕ) :
    (List.replicate n (none : Option ℚ)).getD idx none = none := by
  unfold List.getD
  cases h : (List.replicate n (none : Option ℚ)).get? idx with
  | none => rfl
  | some v =>
    have hv : v = none := (List.mem_replicate.mp (List.get?_mem h)).2
    simp [hv]

lemma nearestGet_replicate (n : ℕ) (j : ℤ) :
    nearestGet (List.replicate n (none : Option ℚ)) j = none := by
  unfold nearestGet
  exact getD_replicate_none n _

lemma windowSum_replicate (n i : ℕ) :
    windowSum (List.replicate n (none : Option ℚ)) i = none := by
  unfold windowSum
  rw [show (woffsets.map (fun o =>
        nearestGet (List.replicate n (none : Option ℚ)) ((i : ℤ) + o)))
      = woffsets.map (fun _ => (none : Option ℚ)) from
    List.map_congr_left (fun o _ => nearestGet_replicate n _)]
  decide

lemma runSums_replicate (n : ℕ) : ∀ i : ℕ,
    runSums (List.replicate n (none : Option ℚ)) i = none := by
  intro i
  induction i with
  | zero => exact windowSum_replicate n 0
  | succ i ih =>
    show oSub (oAdd (runSums (List.replicate n none) i) _) _ = none
    rw [ih, oAdd_none_left, oSub_none_left]

lemma uniformFilter9_nones (n : ℕ) :
    uniformFilter9 (List.replicate n (none : Option ℚ)) = List.replicate n none := by
  unfold uniformFilter9
  simp [runSums_replicate, map_const_none]

lemma smooth_replicate (n : ℕ) :
    smooth (List.replicate n (none : Option ℚ)) = List.replicate n none := by
  unfold smooth
  by_cases h : 9 < (List.replicate n (none : Option ℚ)).length
  · rw [if_pos h, uniformFilter9_nones]
  · rw [if_neg h]

lemma aggTempRaw_length (c : Channels) (bins : List ℤ) :
    (aggTempRaw c bins).length = bins.length := by
  unfold aggTempRaw
  split <;> simp

/-- C2: whenever a session yields an output table, the table's temperature
column is the smoothed aggregated combined temperature, the humidity column
is the raw aggregated humidity, and the dew-point column is the element-wise
`compute_dew_point` of exactly those two columns — i.e. aggregate, then
smooth the temperature, then derive dew point from the smoothed temperature
and the raw humidity. -/
theorem dewPoint_canonical_order (msgs : List Msg) (tbl : Table)
    (h : process msgs = some tbl) :
    tbl.air_temp = smooth (aggTempRaw (classify msgs) (binsOf (classify msgs).gps)) ∧
    tbl.rel_hum = aggHum (classify msgs).hum (binsOf (classify msgs).gps) ∧
    tbl.dew_point = List.zipWith (fun a r => compute_dew_point (q2r a) (q2r r))
      tbl.air_temp tbl.rel_hum := by
  simp only [process] at h
  by_cases hg0 : (classify msgs).gps.isEmpty = true
  · rw [if_pos hg0] at h
    exact absurd h (by simp)
  · rw [if_neg hg0] at h
    rw [Option.some_inj] at h
    subst h
    refine ⟨?_, rfl, rfl⟩
    by_cases hsrc : (tempSources (classify msgs)).isEmpty = true
    · show (if (tempSources (classify msgs)).isEmpty = true then _ else _) = _
      rw [if_pos hsrc]
      have hraw : aggTempRaw (classify msgs) (binsOf (classify msgs).gps)
          = List.replicate (binsOf (classify msgs).gps).length none := by
        unfold aggTempRaw
        rw [if_pos hsrc]
        exact map_const_none _
      rw [hraw, smooth_replicate]
    · show (if (tempSources (classify msgs)).isEmpty = true then _ else _) = _
      rw [if_neg hsrc]
      unfold smooth
      rw [aggTempRaw_length]

theorem dewPoint_canonical_order_inst :
    (⟨[1], [some 1], [some 2], [some 3], [10], [none], [none], [none], [none], [none],
        [none], [none], [none]⟩ : Table).air_temp
      = smooth (aggTempRaw (classify [⟨some 10, "GPS", [("Lat", 1), ("Lng", 2), ("Alt", 3)]⟩])
          (binsOf (classify [⟨some 10, "GPS", [("Lat", 1), ("Lng", 2), ("Alt", 3)]⟩]).gps)) ∧
    (⟨[1], [some 1], [some 2], [some 3], [10], [none], [none], [none], [none], [none],
        [none], [none], [none]⟩ : Table).rel_hum
      = aggHum (classify [⟨some 10, "GPS", [("Lat", 1), ("Lng", 2), ("Alt", 3)]⟩]).hum
          (binsOf (classify [⟨some 10, "GPS", [("Lat", 1), ("Lng", 2), ("Alt", 3)]⟩]).gps) ∧
    (⟨[1], [some 1], [some 2], [some 3], [10], [none], [none], [none], [none], [none],
        [none], [none], [none]⟩ : Table).dew_point
      = List.zipWith (fun a r => compute_dew_point (q2r a) (q2r r))
          (⟨[1], [some 1], [some 2], [some 3], [10], [none], [none], [none], [none], [none],
            [none], [none], [none]⟩ : Table).air_temp
          (⟨[1], [some 1], [some 2], [some 3], [10], [none], [none], [none], [none], [none],
            [none], [none], [none]⟩ : Table).rel_hum :=
  dewPoint_canonical_order [⟨some 10, "GPS", [("Lat", 1), ("Lng", 2), ("Alt", 3)]⟩]
    (⟨[1], [some 1], [some 2], [some 3], [10], [none], [none], [none], [none], [none],
      [none], [none], [none]⟩ : Table) rfl

theorem position_first_wins_inst :
    (⟨[1], [some 1], [some 2], [some 3], [10], [none], [none], [none], [none], [none],
        [none], [none], [none]⟩ : Table).lat.get? 0 = some (some 1) ∧
    (⟨[1], [some 1], [some 2], [some 3], [10], [none], [none], [none], [none], [none],
        [none], [none], [none]⟩ : Table).lon.get? 0 = some (some 2) ∧
    (⟨[1], [some 1], [some 2], [some 3], [10], [none], [none], [none], [none], [none],
        [none], [none], [none]⟩ : Table).altitude.get? 0 = some (some 3) :=
  position_first_wins
    [⟨some 10, "GPS", [("Lat", 1), ("Lng", 2), ("Alt", 3)]⟩,
     ⟨some 10, "GPS", [("Lat", 4), ("Lng", 5), ("Alt", 6)]⟩]
    (⟨[1], [some 1], [some 2], [some 3], [10], [none], [none], [none], [none], [none],
      [none], [none], [none]⟩ : Table) rfl 0 10 (by decide)
    (10, 1, 2, 3) 0 (by decide) (by decide) (by simp)
